import Mathlib

/-
Shallow embedding of the agenty conversational tool-calling driver
(src/agent.rs, src/tool.rs, src/error.rs).

The LLM completion client is an external collaborator: a run of the loop
driver is modelled against a script of response choices, one consumed per
iteration.  Machine-level concerns (async executor, logging via warn and
debug macros) have no observable effect on the modelled state and are
omitted.  Message builders from the openai model crate cannot fail on the
field combinations this code uses, so they are modelled as total
constructors.
-/

namespace Agenty

/-- A tool call requested by the model: id, capability name and raw
JSON argument text (src agent.rs uses ChatCompletionMessageToolCall with
call.function.name and call.function.arguments). -/
structure ToolCall where
  id : String
  name : String
  arguments : String
  deriving Repr, DecidableEq

/-- Finish reason of a response choice (openai FinishReason). -/
inductive FinishReason where
  | stop
  | length
  | toolCalls
  | contentFilter
  | other
  deriving Repr, DecidableEq

/-- One response choice, as consumed by Agent.run_once: optional finish
reason, optional content, optional refusal, optional tool-call list. -/
structure Choice where
  finish_reason : Option FinishReason
  content : Option String
  refusal : Option String
  tool_calls : Option (List ToolCall)
  deriving Repr, DecidableEq

/-- Conversation message (ChatCompletionRequestMessage as used by this
repository: System and User request messages, and Assistant messages
built with exactly one of tool_calls, refusal, content set). -/
inductive Msg where
  | system (text : String)
  | user (text : String)
  | assistantToolCalls (calls : List ToolCall)
  | assistantRefusal (text : String)
  | assistantContent (text : String)
  deriving Repr, DecidableEq

/-- Error taxonomy (src/error.rs AgentyError), restricted to the variants
reachable from the embedded code.  The schemars Schema payload and the
serde_json and eyre payloads are modelled as strings. -/
inductive AgentyError where
  | IncorrectToolCall (schema : String) (args : String)
  | NoSuchTool (name : String)
  | Unexpected (text : String)
  | STDJSON (msg : String)
  | Other (msg : String)
  deriving Repr, DecidableEq

/-- Tri-state step outcome (src/agent.rs AgentAction). -/
inductive AgentAction (T : Type) where
  | Continue
  | Unexpected (text : String)
  | Out (v : T)
  deriving Repr

/-- Type-erased registered capability (trait object ToolDyn): a name and
a call function from raw argument text to a result.  The openai
descriptor object is not needed by the embedded claims. -/
structure ToolDyn where
  name : String
  call : String → Except AgentyError String

/-- The generic Tool::call implementation (src/tool.rs lines 49-59):
parse the raw arguments with the serde parser of the argument type; on
failure report IncorrectToolCall carrying the schema and the raw text,
on success run the invocation logic.  The serde parser is modelled as a
partial function into the argument type. -/
def Tool.call {α : Type} (parse : String → Option α) (schema : String)
    (invoke : α → Except AgentyError String) (arguments : String) :
    Except AgentyError String :=
  match parse arguments with
  | some args => invoke args
  | none => .error (.IncorrectToolCall schema arguments)

/-- Packaging a typed Tool as a type-erased ToolDyn (the blanket impl of
ToolDyn for T : Tool in src/tool.rs). -/
def Tool.toDyn {α : Type} (name : String) (parse : String → Option α)
    (schema : String) (invoke : α → Except AgentyError String) : ToolDyn :=
  ⟨name, Tool.call parse schema invoke⟩

/-- Capability registry (src/tool.rs ToolBox): a name-keyed map, modelled
as an association list looked up by first match. -/
structure ToolBox where
  tools : List (String × ToolDyn)

/-- HashMap get by name. -/
def ToolBox.get (tb : ToolBox) (name : String) : Option ToolDyn :=
  (tb.tools.find? (fun p => p.1 == name)).map (fun p => p.2)

/-- ToolBox::add_dyn_tool, HashMap insert semantics (overwrite by name). -/
def ToolBox.add_dyn_tool (tb : ToolBox) (t : ToolDyn) : ToolBox :=
  ⟨(t.name, t) :: tb.tools.filter (fun p => p.1 != t.name)⟩

/-- ToolBox::invoke (src/tool.rs lines 108-119): none when the name is
unregistered, otherwise the registered tool is called on the raw
arguments. -/
def ToolBox.invoke (tb : ToolBox) (tool_name : String) (arguments : String) :
    Option (Except AgentyError String) :=
  (tb.get tool_name).map (fun t => t.call arguments)

/-- Driver state (src/agent.rs Agent): registry, fixed system and user
prompt texts, and the mutable message sequence. -/
structure Agent where
  tools : ToolBox
  system : String
  user : String
  context : List Msg

/-- Agent::full_context: the fixed System then User preamble followed by
the mutable sequence. -/
def Agent.full_context (ag : Agent) : List Msg :=
  .system ag.system :: .user ag.user :: ag.context

/-- Agent::append_context. -/
def Agent.append_context (ag : Agent) (m : Msg) : Agent :=
  { ag with context := ag.context ++ [m] }

/-- Agent::append_user (the user message builder with content set never
fails, so this is total). -/
def Agent.append_user (ag : Agent) (text : String) : Agent :=
  ag.append_context (.user text)

/-- Agent::revert_context: Vec::pop, removing the last element when one
exists. -/
def Agent.revert_context (ag : Agent) : Agent :=
  { ag with context := ag.context.dropLast }

/-- A continuation injected into run_once: it may mutate the agent and
returns an action or an error (mutations made before an error are kept,
as with the Rust mutable borrow). -/
def Cont (P T : Type) : Type := Agent → P → Agent × Except AgentyError (AgentAction T)

/-- Agent::run_once classification and dispatch (src/agent.rs lines
100-138), after the completion round trip produced the first choice.
Each branch pushes one Assistant message carrying the matched payload
(absent fields default to empty) and then runs the matching continuation
on the updated agent; the fallthrough is a fatal error with no push and
no continuation (the Rust message formats the choice into the text). -/
def Agent.run_once {T : Type} (on_toolcalls : Cont (List ToolCall) T)
    (on_message : Cont String T) (on_refusal : Cont String T)
    (ag : Agent) (choice : Choice) : Agent × Except AgentyError (AgentAction T) :=
  if choice.finish_reason = some .toolCalls ∨
      (choice.tool_calls.map (fun t => !t.isEmpty)).getD false then
    let calls := choice.tool_calls.getD []
    on_toolcalls (ag.append_context (.assistantToolCalls calls)) calls
  else if choice.finish_reason = some .contentFilter ∨ choice.refusal.isSome then
    let r := choice.refusal.getD ""
    on_refusal (ag.append_context (.assistantRefusal r)) r
  else if choice.finish_reason = some .stop ∨ choice.finish_reason = some .length ∨
      choice.content.isSome then
    let c := choice.content.getD ""
    on_message (ag.append_context (.assistantContent c)) c
  else
    (ag, .error (.Other "Not supported choice"))

/-- Agent::handle_toolcalls (src/agent.rs lines 141-161): dispatch each
call in order through the registry; stop at the first missing tool or
error, otherwise collect the result texts in order. -/
def Agent.handle_toolcalls (tb : ToolBox) :
    List ToolCall → Except AgentyError (List String)
  | [] => .ok []
  | call :: rest =>
    match tb.invoke call.name call.arguments with
    | none => .error (.NoSuchTool call.name)
    | some (.error e) => .error e
    | some (.ok v) =>
      match Agent.handle_toolcalls tb rest with
      | .ok vs => .ok (v :: vs)
      | .error e => .error e

/-- The target capability of run_until_tool, seen through its associated
items: Tool::NAME and the serde parser of Tool::ARGUMENTS.  A parse
failure carries the serde error message. -/
structure Target (α : Type) where
  name : String
  parseArgs : String → Except String α

/-- The on_toolcalls continuation of Agent::run_until_tool (src/agent.rs
lines 191-210): if some call targets T::NAME, parse its raw arguments
(a serde failure becomes STDJSON and propagates) and return Out;
otherwise run the resolution helper; NoSuchTool and IncorrectToolCall
from the helper are swallowed into Continue, other errors propagate, and
on success the joined result texts are appended as a User message. -/
def untilTool_onToolCalls {α : Type} (tgt : Target α) :
    Cont (List ToolCall) α := fun ag toolcalls =>
  match toolcalls.find? (fun t => t.name == tgt.name) with
  | some call =>
    match tgt.parseArgs call.arguments with
    | .ok td => (ag, .ok (.Out td))
    | .error e => (ag, .error (.STDJSON e))
  | none =>
    match Agent.handle_toolcalls ag.tools toolcalls with
    | .ok resps => (ag.append_user (String.intercalate "\n" resps), .ok .Continue)
    | .error e =>
      match e with
      | .NoSuchTool _ => (ag, .ok .Continue)
      | .IncorrectToolCall _ _ => (ag, .ok .Continue)
      | _ => (ag, .error e)

/-- The on_toolcalls continuation of Agent::run_until_text (src/agent.rs
lines 236-250): same as the run_until_tool one but with no target
shortcut. -/
def untilText_onToolCalls : Cont (List ToolCall) String := fun ag toolcalls =>
  match Agent.handle_toolcalls ag.tools toolcalls with
  | .ok resps => (ag.append_user (String.intercalate "\n" resps), .ok .Continue)
  | .error e =>
    match e with
    | .NoSuchTool _ => (ag, .ok .Continue)
    | .IncorrectToolCall _ _ => (ag, .ok .Continue)
    | _ => (ag, .error e)

/-- One iteration of Agent::run_until_tool: run_once with the three
continuations of that driver (message and refusal both yield
Unexpected). -/
def untilTool_step {α : Type} (tgt : Target α) (ag : Agent) (choice : Choice) :
    Agent × Except AgentyError (AgentAction α) :=
  Agent.run_once (untilTool_onToolCalls tgt)
    (fun ag msg => (ag, .ok (.Unexpected msg)))
    (fun ag msg => (ag, .ok (.Unexpected msg)))
    ag choice

/-- One iteration of Agent::run_until_text: message yields Out, refusal
yields Unexpected. -/
def untilText_step (ag : Agent) (choice : Choice) :
    Agent × Except AgentyError (AgentAction String) :=
  Agent.run_once untilText_onToolCalls
    (fun ag msg => (ag, .ok (.Out msg)))
    (fun ag msg => (ag, .ok (.Unexpected msg)))
    ag choice

/-- Agent::run_until_tool (src/agent.rs lines 179-222) against a script
of response choices: Continue loops, Out v is success, Unexpected s is
the terminal error AgentyError.Unexpected s, step errors propagate.  An
exhausted script marks a run that the Rust loop would continue past the
modelled horizon. -/
def run_until_tool {α : Type} (tgt : Target α) (ag : Agent) :
    List Choice → Agent × Except AgentyError α
  | [] => (ag, .error (.Other "script exhausted"))
  | choice :: rest =>
    match untilTool_step tgt ag choice with
    | (ag', .error e) => (ag', .error e)
    | (ag', .ok .Continue) => run_until_tool tgt ag' rest
    | (ag', .ok (.Unexpected s)) => (ag', .error (.Unexpected s))
    | (ag', .ok (.Out v)) => (ag', .ok v)

/-- Agent::run_until_text (src/agent.rs lines 224-262) against a script:
Continue loops, and both Out s and Unexpected s return s as a successful
result. -/
def run_until_text (ag : Agent) :
    List Choice → Agent × Except AgentyError String
  | [] => (ag, .error (.Other "script exhausted"))
  | choice :: rest =>
    match untilText_step ag choice with
    | (ag', .error e) => (ag', .error e)
    | (ag', .ok .Continue) => run_until_text ag' rest
    | (ag', .ok (.Unexpected s)) => (ag', .ok s)
    | (ag', .ok (.Out s)) => (ag', .ok s)

/-- Observer of the classification made by Agent.run_once: which of the
three continuations (or the fatal fallthrough) a choice selects.  The
conditions are the if conditions of run_once, in the same order. -/
inductive Branch where
  | toolCalls
  | refusal
  | message
  | fatal
  deriving Repr, DecidableEq

/-- The branch Agent.run_once selects for a choice. -/
def classify (choice : Choice) : Branch :=
  if choice.finish_reason = some .toolCalls ∨
      (choice.tool_calls.map (fun t => !t.isEmpty)).getD false then .toolCalls
  else if choice.finish_reason = some .contentFilter ∨ choice.refusal.isSome then .refusal
  else if choice.finish_reason = some .stop ∨ choice.finish_reason = some .length ∨
      choice.content.isSome then .message
  else .fatal

/- Concrete fixtures used by witness and counterexample theorems. -/

/-- An empty registry. -/
def emptyBox : ToolBox := ⟨[]⟩

/-- A driver state with an empty registry and empty mutable sequence. -/
def agent0 : Agent := ⟨emptyBox, "sys", "task", []⟩

/-- A tool call naming an unregistered capability. -/
def bogusCall : ToolCall := ⟨"id1", "bogus", "args"⟩

/-- A response choice requesting only the bogus call. -/
def choiceBogus : Choice := ⟨some .toolCalls, none, none, some [bogusCall]⟩

/-- A refusal-only response choice. -/
def choiceRefusal : Choice := ⟨none, none, some "policy violation", none⟩

/-- A choice matching no classification signal. -/
def choiceWeird : Choice := ⟨some .other, none, none, none⟩

/-- A choice with both a non-empty tool-call list and non-empty content. -/
def choiceBoth : Choice := ⟨some .stop, some "hello", none, some [bogusCall]⟩

/-- A target capability whose argument parser accepts the raw text as is. -/
def tgtId : Target String := ⟨"echo", fun s => .ok s⟩

/-- A target capability whose argument parser always fails. -/
def tgtFail : Target String := ⟨"echo", fun _ => .error "invalid json"⟩

/-- A tool call addressed to the echo capability. -/
def echoCall : ToolCall := ⟨"id2", "echo", "msg hi"⟩

/-- A choice requesting only the echo call. -/
def choiceEcho : Choice := ⟨some .toolCalls, none, none, some [echoCall]⟩

/-- A serde-style parser fixture for a Nat argument type. -/
def parseNat : String → Option Nat := fun s => if s = "5" then some 5 else none

/-- An invocation logic fixture. -/
def invNat : Nat → Except AgentyError String := fun n => .ok (toString n)

/-- The echo capability as a type-erased tool. -/
def echoDyn : ToolDyn := Tool.toDyn "echo" parseNat "nat-schema" invNat

/-- A registry holding only the echo capability. -/
def box1 : ToolBox := ⟨[("echo", echoDyn)]⟩

/-- A capability that always succeeds with text ra. -/
def okToolA : ToolDyn := ⟨"a", fun _ => .ok "ra"⟩

/-- A registry holding only capability a. -/
def boxA : ToolBox := ⟨[("a", okToolA)]⟩

/-- Calls to a (registered), b (unregistered), c (unregistered). -/
def callA : ToolCall := ⟨"i1", "a", "x"⟩

/-- See callA. -/
def callB : ToolCall := ⟨"i2", "b", "y"⟩

/-- See callA. -/
def callC : ToolCall := ⟨"i3", "c", "z"⟩

/-- A continuation fixture for run_once witnesses. -/
def contTC : Cont (List ToolCall) Nat := fun ag calls => (ag, .ok (.Out calls.length))

/-- A continuation fixture for run_once witnesses. -/
def contMS : Cont String Nat := fun ag s => (ag, .ok (.Out s.length))

/-- A continuation fixture for run_once witnesses. -/
def contRF : Cont String Nat := fun ag _ => (ag, .ok .Continue)

/-- A driver state with two messages in the mutable sequence. -/
def agRev : Agent := ⟨emptyBox, "sys", "task", [.user "a", .assistantContent "b"]⟩

/- Shared lemmas. -/

/-- run_once is the classify case split: each branch pushes its Assistant
message and runs its continuation on the updated agent. -/
theorem run_once_eq_classify {T : Type} (tc : Cont (List ToolCall) T)
    (ms rf : Cont String T) (ag : Agent) (choice : Choice) :
    Agent.run_once tc ms rf ag choice =
      match classify choice with
      | .toolCalls => tc (ag.append_context (.assistantToolCalls (choice.tool_calls.getD [])))
          (choice.tool_calls.getD [])
      | .refusal => rf (ag.append_context (.assistantRefusal (choice.refusal.getD "")))
          (choice.refusal.getD "")
      | .message => ms (ag.append_context (.assistantContent (choice.content.getD "")))
          (choice.content.getD "")
      | .fatal => (ag, .error (.Other "Not supported choice")) := by
  unfold Agent.run_once classify
  split_ifs <;> rfl

/-- The first if condition of run_once, in terms of an explicit list. -/
theorem toolcalls_cond_iff (choice : Choice) :
    ((choice.tool_calls.map (fun t => !t.isEmpty)).getD false = true) ↔
      ∃ l, choice.tool_calls = some l ∧ l ≠ [] := by
  cases h : choice.tool_calls with
  | none => simp
  | some l => simp [List.isEmpty_iff]

/-- classify selects the toolCalls branch exactly on the first condition. -/
theorem classify_eq_toolCalls_iff (choice : Choice) :
    classify choice = .toolCalls ↔
      (choice.finish_reason = some .toolCalls ∨
        (choice.tool_calls.map (fun t => !t.isEmpty)).getD false) := by
  unfold classify
  split_ifs with h1 h2 h3 <;> simp_all

/-- C1: the ToolCalls branch is selected exactly when the finish reason
is toolCalls or the tool-call list is present and non-empty; in
particular a choice with a non-empty tool-call list and non-empty
content makes run_once invoke the toolcalls continuation (and, by the
shape of the right-hand side, no other continuation). -/
theorem toolcalls_branch_precedence {T : Type} (tc : Cont (List ToolCall) T)
    (ms rf : Cont String T) (ag : Agent) (choice : Choice) :
    (classify choice = .toolCalls ↔
      (choice.finish_reason = some .toolCalls ∨ ∃ l, choice.tool_calls = some l ∧ l ≠ []))
    ∧ (∀ l c, choice.tool_calls = some l → l ≠ [] → choice.content = some c → c ≠ "" →
        Agent.run_once tc ms rf ag choice =
          tc (ag.append_context (.assistantToolCalls l)) l) := by
  constructor
  · rw [classify_eq_toolCalls_iff]
    constructor
    · rintro (h | h)
      · exact Or.inl h
      · exact Or.inr ((toolcalls_cond_iff choice).mp h)
    · rintro (h | ⟨l, hl, hne⟩)
      · exact Or.inl h
      · exact Or.inr ((toolcalls_cond_iff choice).mpr ⟨l, hl, hne⟩)
  · intro l c hl hne _ _
    have hcond : choice.finish_reason = some FinishReason.toolCalls ∨
        ((choice.tool_calls.map (fun t => !t.isEmpty)).getD false = true) :=
      Or.inr ((toolcalls_cond_iff choice).mpr ⟨l, hl, hne⟩)
    unfold Agent.run_once
    rw [if_pos hcond]
    simp [hl]

/-- Witness for C1: a choice with finish reason stop, non-empty content
and a non-empty tool-call list still selects the ToolCalls branch. -/
theorem toolcalls_branch_precedence_witness :
    classify choiceBoth = .toolCalls
    ∧ Agent.run_once contTC contMS contRF agent0 choiceBoth =
        contTC (agent0.append_context (.assistantToolCalls [bogusCall])) [bogusCall] :=
  ⟨(toolcalls_branch_precedence contTC contMS contRF agent0 choiceBoth).1.mpr
      (Or.inr ⟨[bogusCall], rfl, by decide⟩),
   (toolcalls_branch_precedence contTC contMS contRF agent0 choiceBoth).2 [bogusCall] "hello"
      rfl (by decide) rfl (by decide)⟩

/-- C6: for each matched branch, run_once appends exactly one Assistant
message carrying the matched payload (defaulting to the empty value when
the field is absent) and then invokes the matching continuation on the
updated state. -/
theorem classifier_side_effects {T : Type} (tc : Cont (List ToolCall) T)
    (ms rf : Cont String T) (ag : Agent) (choice : Choice) :
    (classify choice = .toolCalls →
      Agent.run_once tc ms rf ag choice =
        tc { ag with context := ag.context ++ [.assistantToolCalls (choice.tool_calls.getD [])] }
          (choice.tool_calls.getD []))
    ∧ (classify choice = .refusal →
      Agent.run_once tc ms rf ag choice =
        rf { ag with context := ag.context ++ [.assistantRefusal (choice.refusal.getD "")] }
          (choice.refusal.getD ""))
    ∧ (classify choice = .message →
      Agent.run_once tc ms rf ag choice =
        ms { ag with context := ag.context ++ [.assistantContent (choice.content.getD "")] }
          (choice.content.getD "")) := by
  refine ⟨?_, ?_, ?_⟩ <;> intro h <;> rw [run_once_eq_classify, h] <;> rfl

/-- Witness for C6 at a refusal-only choice. -/
theorem classifier_side_effects_witness :
    Agent.run_once contTC contMS contRF agent0 choiceRefusal =
      contRF { agent0 with context := agent0.context ++ [.assistantRefusal "policy violation"] }
        "policy violation" :=
  (classifier_side_effects contTC contMS contRF agent0 choiceRefusal).2.1 rfl

/-- C7: a choice whose finish reason is none of stop, length, toolCalls,
contentFilter and which carries no content, no refusal and no non-empty
tool-call list makes run_once return the fatal unexpected-shape error
with the state unchanged; no continuation is invoked and the outcome is
an error, never Continue. -/
theorem fallthrough_fatal {T : Type} (tc : Cont (List ToolCall) T)
    (ms rf : Cont String T) (ag : Agent) (choice : Choice)
    (h1 : choice.finish_reason ≠ some .stop)
    (h2 : choice.finish_reason ≠ some .length)
    (h3 : choice.finish_reason ≠ some .toolCalls)
    (h4 : choice.finish_reason ≠ some .contentFilter)
    (h5 : choice.content = none)
    (h6 : choice.refusal = none)
    (h7 : choice.tool_calls = none ∨ choice.tool_calls = some []) :
    Agent.run_once tc ms rf ag choice = (ag, .error (.Other "Not supported choice")) := by
  have hc1 : ¬(choice.finish_reason = some FinishReason.toolCalls ∨
      ((choice.tool_calls.map (fun t => !t.isEmpty)).getD false = true)) := by
    rintro (h | h)
    · exact h3 h
    · rcases h7 with h7 | h7 <;> rw [h7] at h <;> simp at h
  have hc2 : ¬(choice.finish_reason = some FinishReason.contentFilter ∨
      choice.refusal.isSome) := by
    rintro (h | h)
    · exact h4 h
    · rw [h6] at h
      simp at h
  have hc3 : ¬(choice.finish_reason = some FinishReason.stop ∨
      choice.finish_reason = some FinishReason.length ∨ choice.content.isSome) := by
    rintro (h | h | h)
    · exact h1 h
    · exact h2 h
    · rw [h5] at h
      simp at h
  unfold Agent.run_once
  rw [if_neg hc1, if_neg hc2, if_neg hc3]

/-- Witness for C7 at a choice with finish reason other and no payload. -/
theorem fallthrough_fatal_witness :
    Agent.run_once contTC contMS contRF agent0 choiceWeird =
      (agent0, .error (.Other "Not supported choice")) :=
  fallthrough_fatal contTC contMS contRF agent0 choiceWeird
    (by decide) (by decide) (by decide) (by decide) rfl rfl (Or.inl rfl)

/-- C9: revert_context removes exactly the most recently appended message
from the mutable sequence and is a no-op on an empty sequence; in every
state full_context is the fixed System then User preamble followed by the
mutable sequence, and revert_context leaves the preamble texts intact. -/
theorem revertLast_and_preamble (ag : Agent) :
    (∀ l m, ag.context = l ++ [m] → (ag.revert_context).context = l)
    ∧ (ag.context = [] → ag.revert_context = ag)
    ∧ ag.full_context = .system ag.system :: .user ag.user :: ag.context
    ∧ (ag.revert_context).system = ag.system ∧ (ag.revert_context).user = ag.user := by
  refine ⟨?_, ?_, rfl, rfl, rfl⟩
  · intro l m h
    simp [Agent.revert_context, h]
  · intro h
    cases ag
    simp_all [Agent.revert_context]

/-- Witness for C9 at concrete states. -/
theorem revertLast_and_preamble_witness :
    (agRev.revert_context).context = [.user "a"]
    ∧ agent0.revert_context = agent0 :=
  ⟨(revertLast_and_preamble agRev).1 [.user "a"] (.assistantContent "b") rfl,
   (revertLast_and_preamble agent0).2.1 rfl⟩

/-- C8: ToolBox.invoke is none exactly when the name is unregistered; for
a registered capability built from a typed Tool, an argument parse
failure yields IncorrectToolCall with the schema and the raw arguments
without running the invocation logic (the conclusion does not depend on
inv), and a parse success returns exactly what the invocation logic
returns. -/
theorem toolbox_invoke_spec (tb : ToolBox) (name args : String) :
    (tb.invoke name args = none ↔ tb.get name = none)
    ∧ (∀ (α : Type) (nm schema : String) (parse : String → Option α)
        (inv : α → Except AgentyError String),
        tb.get name = some (Tool.toDyn nm parse schema inv) →
        (parse args = none →
          tb.invoke name args = some (.error (.IncorrectToolCall schema args)))
        ∧ (∀ a, parse args = some a → tb.invoke name args = some (inv a))) := by
  constructor
  · simp [ToolBox.invoke, Option.map_eq_none']
  · intro α nm schema parse inv hget
    constructor
    · intro hp
      simp [ToolBox.invoke, hget, Tool.toDyn, Tool.call, hp]
    · intro a hp
      simp [ToolBox.invoke, hget, Tool.toDyn, Tool.call, hp]

/-- Witness for C8 on a one-tool registry: unknown name, bad arguments,
good arguments. -/
theorem toolbox_invoke_spec_witness :
    box1.invoke "missing" "5" = none
    ∧ box1.invoke "echo" "bad" = some (.error (.IncorrectToolCall "nat-schema" "bad"))
    ∧ box1.invoke "echo" "5" = some (.ok "5") :=
  ⟨(toolbox_invoke_spec box1 "missing" "5").1.mpr rfl,
   ((toolbox_invoke_spec box1 "echo" "bad").2 Nat "echo" "nat-schema" parseNat invNat rfl).1 rfl,
   ((toolbox_invoke_spec box1 "echo" "5").2 Nat "echo" "nat-schema" parseNat invNat rfl).2 5 rfl⟩

/-- C4: the resolution helper dispatches the batch in order; when every
dispatch succeeds it returns the result texts in call order, and on the
first dispatch returning none or an error it stops with exactly that
error — the conclusion holds for every suffix post, which is absent from
the result, so the remaining calls are never dispatched. -/
theorem handle_toolcalls_short_circuit (tb : ToolBox) :
    (∀ (calls : List ToolCall) (f : ToolCall → String),
      (∀ c ∈ calls, tb.invoke c.name c.arguments = some (.ok (f c))) →
      Agent.handle_toolcalls tb calls = .ok (calls.map f))
    ∧ (∀ (pre : List ToolCall) (c : ToolCall) (post : List ToolCall) (f : ToolCall → String),
      (∀ c' ∈ pre, tb.invoke c'.name c'.arguments = some (.ok (f c'))) →
      (tb.invoke c.name c.arguments = none →
        Agent.handle_toolcalls tb (pre ++ c :: post) = .error (.NoSuchTool c.name))
      ∧ (∀ e, tb.invoke c.name c.arguments = some (.error e) →
        Agent.handle_toolcalls tb (pre ++ c :: post) = .error e)) := by
  have hok : ∀ (calls : List ToolCall) (f : ToolCall → String),
      (∀ c ∈ calls, tb.invoke c.name c.arguments = some (.ok (f c))) →
      Agent.handle_toolcalls tb calls = .ok (calls.map f) := by
    intro calls f h
    induction calls with
    | nil => simp [Agent.handle_toolcalls]
    | cons c rest ih =>
      have hc := h c (List.mem_cons_self c rest)
      have hr := ih (fun c' hc' => h c' (List.mem_cons_of_mem c hc'))
      simp [Agent.handle_toolcalls, hc, hr]
  refine ⟨hok, ?_⟩
  intro pre c post f hpre
  induction pre with
  | nil =>
    constructor
    · intro hnone
      simp [Agent.handle_toolcalls, hnone]
    · intro e he
      simp [Agent.handle_toolcalls, he]
  | cons p pre ih =>
    have hp := hpre p (List.mem_cons_self p pre)
    have hrest := ih (fun c' hc' => hpre c' (List.mem_cons_of_mem p hc'))
    constructor
    · intro hnone
      simp [Agent.handle_toolcalls, hp, hrest.1 hnone]
    · intro e he
      simp [Agent.handle_toolcalls, hp, hrest.2 e he]

/-- Witness for C4: a three-call batch where the second dispatch fails
reports NoSuchTool for the second call, and an all-good batch collects
the texts. -/
theorem handle_toolcalls_short_circuit_witness :
    Agent.handle_toolcalls boxA [callA, callB, callC] = .error (.NoSuchTool "b")
    ∧ Agent.handle_toolcalls boxA [callA] = .ok ["ra"] := by
  refine ⟨?_, ?_⟩
  · exact ((handle_toolcalls_short_circuit boxA).2 [callA] callB [callC] (fun _ => "ra")
      (by intro c' hc'; rw [List.mem_singleton] at hc'; subst hc'; rfl)).1 rfl
  · exact (handle_toolcalls_short_circuit boxA).1 [callA] (fun _ => "ra")
      (by intro c hc; rw [List.mem_singleton] at hc; subst hc; rfl)

/-- The find? used by the target shortcut succeeds exactly when the
batch contains a call whose name equals the target name. -/
theorem find_target_isSome_iff (toolcalls : List ToolCall) (nm : String) :
    (toolcalls.find? (fun t => t.name == nm)).isSome ↔ ∃ c ∈ toolcalls, c.name = nm := by
  simp [List.find?_isSome]

/-- C3: when the batch contains a call to the target capability (the
first such call, as returned by find?; see find_target_isSome_iff), the
run_until_tool continuation returns the parse of the raw arguments of
that call as Out (or a propagating STDJSON error) with the state
unchanged; the right-hand side mentions neither
the registry nor any other call of the batch, so no capability logic is
invoked and no other call is dispatched. -/
theorem target_tool_shortcut {α : Type} (tgt : Target α) (ag : Agent)
    (toolcalls : List ToolCall) (call : ToolCall)
    (hfind : toolcalls.find? (fun t => t.name == tgt.name) = some call) :
    untilTool_onToolCalls tgt ag toolcalls =
      (ag, match tgt.parseArgs call.arguments with
           | .ok td => .ok (.Out td)
           | .error e => .error (.STDJSON e)) := by
  unfold untilTool_onToolCalls
  rw [hfind]
  cases hp : tgt.parseArgs call.arguments <;> simp [hp]

/-- Witness for C3: a batch holding one echo call with the echo target
returns Out of the parsed arguments. -/
theorem target_tool_shortcut_witness :
    untilTool_onToolCalls tgtId agent0 [echoCall] = (agent0, .ok (.Out "msg hi")) :=
  target_tool_shortcut tgtId agent0 [echoCall] echoCall rfl

/-- C2 amended: in both loop drivers, when the resolution helper fails
with NoSuchTool or IncorrectToolCall the error is swallowed and the
continuation returns Continue with the driver state unchanged — no User
message is appended (the code only logs a warning); every other helper
error propagates unchanged and aborts the loop. -/
theorem recoverable_errors_continue {α : Type} (tgt : Target α) (ag : Agent)
    (toolcalls : List ToolCall)
    (hfind : toolcalls.find? (fun t => t.name == tgt.name) = none) :
    (∀ n, Agent.handle_toolcalls ag.tools toolcalls = .error (.NoSuchTool n) →
      untilTool_onToolCalls tgt ag toolcalls = (ag, .ok .Continue)
      ∧ untilText_onToolCalls ag toolcalls = (ag, .ok .Continue))
    ∧ (∀ s a, Agent.handle_toolcalls ag.tools toolcalls = .error (.IncorrectToolCall s a) →
      untilTool_onToolCalls tgt ag toolcalls = (ag, .ok .Continue)
      ∧ untilText_onToolCalls ag toolcalls = (ag, .ok .Continue))
    ∧ (∀ e, Agent.handle_toolcalls ag.tools toolcalls = .error e →
      (∀ n, e ≠ .NoSuchTool n) → (∀ s a, e ≠ .IncorrectToolCall s a) →
      untilTool_onToolCalls tgt ag toolcalls = (ag, .error e)
      ∧ untilText_onToolCalls ag toolcalls = (ag, .error e)) := by
  refine ⟨?_, ?_, ?_⟩
  · intro n h
    exact ⟨by simp [untilTool_onToolCalls, hfind, h], by simp [untilText_onToolCalls, h]⟩
  · intro s a h
    exact ⟨by simp [untilTool_onToolCalls, hfind, h], by simp [untilText_onToolCalls, h]⟩
  · intro e h hn hi
    cases e with
    | NoSuchTool n => exact absurd rfl (hn n)
    | IncorrectToolCall s a => exact absurd rfl (hi s a)
    | Unexpected t =>
      exact ⟨by simp [untilTool_onToolCalls, hfind, h], by simp [untilText_onToolCalls, h]⟩
    | STDJSON m =>
      exact ⟨by simp [untilTool_onToolCalls, hfind, h], by simp [untilText_onToolCalls, h]⟩
    | Other m =>
      exact ⟨by simp [untilTool_onToolCalls, hfind, h], by simp [untilText_onToolCalls, h]⟩

/-- Witness for C2 at a concrete batch naming an unregistered tool. -/
theorem recoverable_errors_continue_witness :
    untilTool_onToolCalls tgtId agent0 [bogusCall] = (agent0, .ok .Continue)
    ∧ untilText_onToolCalls agent0 [bogusCall] = (agent0, .ok .Continue) :=
  (recoverable_errors_continue tgtId agent0 [bogusCall] rfl).1 "bogus" rfl

/-- C2 counterexample: one full iteration of each loop driver on a
choice requesting an unregistered tool yields Continue, but the
resulting state holds only the Assistant tool-calls message recorded by
the classifier — no User message summarizing the problem was appended,
contrary to the claimed behavior on the recoverable path. -/
theorem recoverable_no_message_counterexample :
    untilTool_step tgtId agent0 choiceBogus =
      ({ agent0 with context := [.assistantToolCalls [bogusCall]] }, .ok .Continue)
    ∧ untilText_step agent0 choiceBogus =
      ({ agent0 with context := [.assistantToolCalls [bogusCall]] }, .ok .Continue) :=
  ⟨rfl, rfl⟩

/-- C5: a choice classified into the Refusal branch with refusal text t
makes run_until_text return t as a successful result, while the same
choice makes run_until_tool return the terminal Unexpected error
carrying t; both record the Assistant refusal message. -/
theorem refusal_asymmetry {α : Type} (tgt : Target α) (ag : Agent) (choice : Choice)
    (rest : List Choice) (t : String)
    (hntc : choice.finish_reason ≠ some .toolCalls)
    (hempty : choice.tool_calls = none ∨ choice.tool_calls = some [])
    (href : choice.finish_reason = some .contentFilter ∨ choice.refusal.isSome)
    (ht : choice.refusal.getD "" = t) :
    run_until_text ag (choice :: rest) =
      (ag.append_context (.assistantRefusal t), .ok t)
    ∧ run_until_tool tgt ag (choice :: rest) =
      (ag.append_context (.assistantRefusal t), .error (.Unexpected t)) := by
  have hc1 : ¬(choice.finish_reason = some FinishReason.toolCalls ∨
      ((choice.tool_calls.map (fun t => !t.isEmpty)).getD false = true)) := by
    rintro (h | h)
    · exact hntc h
    · rcases hempty with h7 | h7 <;> rw [h7] at h <;> simp at h
  have hcl : classify choice = .refusal := by
    unfold classify
    rw [if_neg hc1, if_pos href]
  have hstep2 : untilText_step ag choice =
      (ag.append_context (.assistantRefusal t), .ok (.Unexpected t)) := by
    unfold untilText_step
    rw [run_once_eq_classify, hcl, ht]
  have hstep1 : untilTool_step tgt ag choice =
      (ag.append_context (.assistantRefusal t), .ok (.Unexpected t)) := by
    unfold untilTool_step
    rw [run_once_eq_classify, hcl, ht]
  constructor
  · unfold run_until_text
    rw [hstep2]
  · unfold run_until_tool
    rw [hstep1]

/-- Witness for C5 at a refusal-only choice. -/
theorem refusal_asymmetry_witness :
    run_until_text agent0 [choiceRefusal] =
      (agent0.append_context (.assistantRefusal "policy violation"), .ok "policy violation")
    ∧ run_until_tool tgtId agent0 [choiceRefusal] =
      (agent0.append_context (.assistantRefusal "policy violation"),
        .error (.Unexpected "policy violation")) :=
  refusal_asymmetry tgtId agent0 choiceRefusal [] "policy violation"
    (by decide) (Or.inl rfl) (Or.inr rfl) rfl

/-- C10: when the batch contains a call to the target capability but its
raw arguments fail to parse, run_until_tool aborts at once with the
STDJSON error — not a recoverable Continue — and the Assistant
tool-calls message recorded by the classifier stays in the context. -/
theorem target_parse_failure_aborts {α : Type} (tgt : Target α) (ag : Agent)
    (choice : Choice) (rest : List Choice) (l : List ToolCall) (call : ToolCall) (e : String)
    (hl : choice.tool_calls = some l) (hne : l ≠ [])
    (hfind : l.find? (fun t => t.name == tgt.name) = some call)
    (hparse : tgt.parseArgs call.arguments = .error e) :
    run_until_tool tgt ag (choice :: rest) =
      (ag.append_context (.assistantToolCalls l), .error (.STDJSON e)) := by
  have hcond : choice.finish_reason = some FinishReason.toolCalls ∨
      ((choice.tool_calls.map (fun t => !t.isEmpty)).getD false = true) :=
    Or.inr ((toolcalls_cond_iff choice).mpr ⟨l, hl, hne⟩)
  have hstep : untilTool_step tgt ag choice =
      (ag.append_context (.assistantToolCalls l), .error (.STDJSON e)) := by
    unfold untilTool_step Agent.run_once
    rw [if_pos hcond]
    simp only [hl, Option.getD_some]
    unfold untilTool_onToolCalls
    simp only [hfind, hparse]
  unfold run_until_tool
  rw [hstep]

/-- Witness for C10: the echo call with an always-failing target parser
aborts the loop with STDJSON. -/
theorem target_parse_failure_aborts_witness :
    run_until_tool tgtFail agent0 [choiceEcho] =
      (agent0.append_context (.assistantToolCalls [echoCall]),
        .error (.STDJSON "invalid json")) :=
  target_parse_failure_aborts tgtFail agent0 choiceEcho [] [echoCall] echoCall "invalid json"
    rfl (by decide) rfl rfl

end Agenty
